import Mathlib

/-!
Verification development for the driving-test quiz engine
(src/driving-test/scripts/quiz.py).

The Python source is shallowly embedded: questions and the learner progress
record become Lean structures, JSON dicts become association lists keyed by
strings in insertion order, Python lists become Lean lists, and the two
randomized primitives (random.sample, random.shuffle) become parameters of a
selection context constrained only by the properties every possible execution
of the Python primitives satisfies (a sample of size k from a pool of length
at least k returns k elements of the pool; a shuffle returns a permutation).
Python string operations used by the answer checker (strip, upper, replace)
are re-implemented over the character list of the string, because the checker
only ever applies them to ASCII letters and CJK characters, on which these
models agree with Python exactly.
-/

/-! ## Python string primitives (quiz.py cmd_check, lines 334-341) -/

/-- Model of str.upper restricted to ASCII letters; CJK characters (对, 错,
正确, 错误) are fixed points of Python's upper as well, so the two agree on
every string the checker handles. -/
def charUpper (c : Char) : Char :=
  if 'a' ≤ c ∧ c ≤ 'z' then Char.ofNat (c.toNat - 32) else c

/-- Model of str.upper.  -/
def pyUpper (s : String) : String := ⟨s.data.map charUpper⟩

/-- Whitespace recognized by the model of str.strip. -/
def isWS (c : Char) : Bool := c == ' ' || c == '\t' || c == '\n' || c == '\r'

/-- Model of str.strip: drop whitespace from both ends. -/
def pyStrip (s : String) : String :=
  ⟨((s.data.dropWhile isWS).reverse.dropWhile isWS).reverse⟩

/-- Does the pattern occur at the head of the character list? -/
def matchesAt : List Char → List Char → Bool
  | [], _ => true
  | _ :: _, [] => false
  | p :: ps, c :: cs => p == c && matchesAt ps cs

/-- Left-to-right non-overlapping substring replacement over character lists,
the semantics of Python's str.replace.  The fuel argument (instantiated with
the input length) makes the recursion structural; each step consumes at least
one character, so fuel never runs out on the intended calls. -/
def replaceFuel (pat rep : List Char) : Nat → List Char → List Char
  | 0, l => l
  | _ + 1, [] => []
  | n + 1, c :: rest =>
    if pat ≠ [] && matchesAt pat (c :: rest) then
      rep ++ replaceFuel pat rep n (rest.drop (pat.length - 1))
    else
      c :: replaceFuel pat rep n rest

/-- Model of str.replace. -/
def pyReplace (s pat rep : String) : String :=
  ⟨replaceFuel pat.data rep.data s.data.length s.data⟩

/-! ## Data model -/

/-- A corpus question (quiz.py corpus file contract; answers are letters for
single/multi questions, 对 or 错 for judge questions). -/
structure Question where
  id : Int
  subject : Nat
  category : String
  qtype : String
  question : String
  options : List String
  answer : String
  explanation : String
  deriving DecidableEq

/-- Per-category progress entry (quiz.py cmd_check, lines 349-352). -/
structure CatStat where
  answered : Nat
  correct : Nat
  answered_ids : List Int
  deriving DecidableEq

/-- Per-question lifetime statistics (quiz.py cmd_check, lines 363-368). -/
structure QStat where
  attempts : Nat
  correct : Nat
  deriving DecidableEq

/-- A recorded mock exam (quiz.py cmd_record_exam, lines 732-739). -/
structure MockExam where
  date : String
  vehicle_type : String
  subject : Nat
  score : Int
  total : Int
  passed : Bool
  deriving DecidableEq

/-- The learner progress record with every top-level field present.  JSON
dicts keep insertion order, so dict-valued fields are association lists. -/
structure Progress where
  total_answered : Nat
  total_correct : Nat
  categories : List (String × CatStat)
  wrong_questions : List Int
  favorites : List Int
  sequential_pos : List (String × Nat)
  question_stats : List (String × QStat)
  mock_exams : List MockExam
  deriving DecidableEq

/-- A persisted progress record as read from disk: any top-level field may be
structurally absent (an older schema), which Option models. -/
structure RawProgress where
  total_answered : Option Nat
  total_correct : Option Nat
  categories : Option (List (String × CatStat))
  wrong_questions : Option (List Int)
  favorites : Option (List Int)
  sequential_pos : Option (List (String × Nat))
  question_stats : Option (List (String × QStat))
  mock_exams : Option (List MockExam)
  deriving DecidableEq

/-- quiz.py _default_progress (lines 167-177): the all-empty record. -/
def default_progress : Progress :=
  { total_answered := 0
    total_correct := 0
    categories := []
    wrong_questions := []
    favorites := []
    sequential_pos := []
    question_stats := []
    mock_exams := [] }

/-- The default record with every field present, as written by
_default_progress. -/
def default_raw_progress : RawProgress :=
  { total_answered := some 0
    total_correct := some 0
    categories := some []
    wrong_questions := some []
    favorites := some []
    sequential_pos := some []
    question_stats := some []
    mock_exams := some [] }

/-- quiz.py load_progress (lines 160-164): parse the file when it exists,
otherwise the default record. -/
def load_progress (file : Option RawProgress) : RawProgress :=
  file.getD default_raw_progress

/-- quiz.py ensure_fields (lines 185-190): fill in exactly the three newer
fields (favorites, sequential_pos, question_stats) when absent; every other
field is left exactly as loaded. -/
def ensure_fields (p : RawProgress) : RawProgress :=
  { p with
    favorites := some (p.favorites.getD [])
    sequential_pos := some (p.sequential_pos.getD [])
    question_stats := some (p.question_stats.getD []) }

/-- quiz.py cmd_record_exam (lines 729-741): appends to mock_exams.  When the
loaded record has no mock_exams field (ensure_fields does not repair it), the
Python raises KeyError, which none models. -/
def cmd_record_exam (raw : RawProgress) (date vehicle_type : String)
    (subject : Nat) (score total : Int) : Option RawProgress :=
  match (ensure_fields raw).mock_exams with
  | none => none
  | some l =>
    some { ensure_fields raw with
            mock_exams := some (l ++ [{ date := date, vehicle_type := vehicle_type,
                                        subject := subject, score := score, total := total,
                                        passed := decide (90 ≤ score) }]) }

/-! ## Association-list helpers for JSON dicts (insertion order) -/

/-- Dict read: first entry with the given key. -/
def assocGet {β : Type} (l : List (String × β)) (k : String) : Option β :=
  match l with
  | [] => none
  | kv :: rest => if kv.1 = k then some kv.2 else assocGet rest k

/-- Dict write: replace in place when present, append otherwise (dict
insertion-order semantics). -/
def assocSet {β : Type} (l : List (String × β)) (k : String) (v : β) :
    List (String × β) :=
  match l with
  | [] => [(k, v)]
  | kv :: rest => if kv.1 = k then (k, v) :: rest else kv :: assocSet rest k v

/-- Model of the pattern: if key not in dict, insert the default. -/
def assocEnsure {β : Type} (l : List (String × β)) (k : String) (d : β) :
    List (String × β) :=
  if (assocGet l k).isSome then l else l ++ [(k, d)]

/-- Model of mutating the entry under an existing key in place. -/
def assocModify {β : Type} (l : List (String × β)) (k : String) (f : β → β) :
    List (String × β) :=
  match l with
  | [] => []
  | kv :: rest => if kv.1 = k then (kv.1, f kv.2) :: rest else kv :: assocModify rest k f

/-! ## Corpus lookup -/

/-- quiz.py find_question_by_id (lines 147-157): scan every loaded corpus in
order and return the first question with the requested id.  The flattened
scan order is the corpora parameter. -/
def find_question_by_id (corpora : List Question) (qid : Int) : Option Question :=
  corpora.find? (fun q => q.id == qid)

/-! ## Answer checker (quiz.py cmd_check, lines 328-391) -/

/-- The fixed judge-type synonym substitutions of cmd_check line 338, applied
by substring replacement in dict insertion order (lines 339-341). -/
def judgeNormalize (s : String) : String :=
  pyReplace (pyReplace (pyReplace (pyReplace (pyReplace (pyReplace
    s "正确" "对") "错误" "错") "TRUE" "对") "FALSE" "错") "RIGHT" "对") "WRONG" "错"

/-- Scoring of a submitted answer (cmd_check lines 334-344): upper-case the
stripped submission and the stored answer; for judge questions translate the
synonym set first, then compare for exact equality. -/
def answerIsCorrect (q : Question) (answer : String) : Bool :=
  let user_answer := pyUpper (pyStrip answer)
  let correct_answer := pyUpper (pyStrip q.answer)
  if q.qtype = "judge" then judgeNormalize user_answer == correct_answer
  else user_answer == correct_answer

/-- The wrong_questions update of cmd_check lines 354-361: a correct answer
removes the id when present; an incorrect answer appends it when absent. -/
def updateWrongQuestions (wrong : List Int) (qid : Int) (is_correct : Bool) :
    List Int :=
  if is_correct then
    if qid ∈ wrong then wrong.erase qid else wrong
  else
    if qid ∈ wrong then wrong else wrong ++ [qid]

/-- The progress mutation of cmd_check lines 346-368: bump the global and
per-category counters, append the id to the category's answered list, update
the currently-wrong set, and bump the per-question lifetime statistics. -/
def checkProgressUpdate (progress : Progress) (q : Question) (is_correct : Bool) :
    Progress :=
  let cats0 := assocEnsure progress.categories q.category
    { answered := 0, correct := 0, answered_ids := [] }
  let cats1 := assocModify cats0 q.category
    (fun c => { c with answered := c.answered + 1, answered_ids := c.answered_ids ++ [q.id] })
  let cats2 :=
    if is_correct then assocModify cats1 q.category (fun c => { c with correct := c.correct + 1 })
    else cats1
  let stats0 := assocEnsure progress.question_stats (toString q.id) { attempts := 0, correct := 0 }
  let stats1 := assocModify stats0 (toString q.id) (fun s => { s with attempts := s.attempts + 1 })
  let stats2 :=
    if is_correct then assocModify stats1 (toString q.id) (fun s => { s with correct := s.correct + 1 })
    else stats1
  { progress with
    total_answered := progress.total_answered + 1
    total_correct := if is_correct then progress.total_correct + 1 else progress.total_correct
    categories := cats2
    wrong_questions := updateWrongQuestions progress.wrong_questions q.id is_correct
    question_stats := stats2 }

/-- Reply of the check command. -/
structure CheckResult where
  question_id : Int
  correct : Bool
  attempts : Nat
  deriving DecidableEq

/-- Outcome of the check command: unknown id, or a scored answer. -/
inductive CheckReply where
  | questionNotFound
  | checked (r : CheckResult)
  deriving DecidableEq

/-- quiz.py cmd_check (lines 328-391).  Returns the reply, the resulting
progress record, and whether the record was persisted.  An unknown id returns
before the progress file is touched. -/
def cmd_check (corpora : List Question) (progress : Progress) (qid : Int)
    (answer : String) : CheckReply × Progress × Bool :=
  match find_question_by_id corpora qid with
  | none => (CheckReply.questionNotFound, progress, false)
  | some q =>
    let is_correct := answerIsCorrect q answer
    let p2 := checkProgressUpdate progress q is_correct
    let att := ((assocGet p2.question_stats (toString q.id)).map QStat.attempts).getD 0
    (CheckReply.checked { question_id := q.id, correct := is_correct, attempts := att }, p2, true)

/-! ## Sequential practice (quiz.py cmd_sequential, lines 262-305) -/

/-- Reply of the sequential command. -/
inductive SeqReply where
  | resetDone (position : Nat) (total : Nat)
  | completed (position : Nat) (total : Nat)
  | batch (position : Nat) (end_position : Nat) (total : Nat) (remaining : Nat)
      (count : Nat) (questions : List Question)
  deriving DecidableEq

/-- quiz.py cmd_sequential: resume from the persisted cursor, serve the slice
from the cursor to min(cursor + count, total), persist the new cursor; when
the cursor has reached the corpus length, report completion and leave the
record untouched. -/
def cmd_sequential (questions : List Question) (progress : Progress)
    (pos_key : String) (count : Nat) (reset : Bool) : SeqReply × Progress :=
  if reset then
    (SeqReply.resetDone 0 questions.length,
     { progress with sequential_pos := assocSet progress.sequential_pos pos_key 0 })
  else
    let current_pos := (assocGet progress.sequential_pos pos_key).getD 0
    let total := questions.length
    if current_pos ≥ total then
      (SeqReply.completed current_pos total, progress)
    else
      let end_pos := min (current_pos + count) total
      let selected := (questions.drop current_pos).take (end_pos - current_pos)
      (SeqReply.batch (current_pos + 1) end_pos total (total - end_pos)
        selected.length selected,
       { progress with sequential_pos := assocSet progress.sequential_pos pos_key end_pos })

/-! ## Favorites (quiz.py cmd_favorite lines 495-509, cmd_unfavorite lines 512-521) -/

/-- Reply of the favorite command. -/
inductive FavReply where
  | questionNotFound
  | favorited (total : Nat)
  | already_favorited (total : Nat)
  deriving DecidableEq

/-- quiz.py cmd_favorite: resolves the id against the corpora first; an
unknown id is an error.  A new id is appended and the record persisted; an id
already present only reports already_favorited without saving. -/
def cmd_favorite (corpora : List Question) (progress : Progress) (qid : Int) :
    FavReply × Progress × Bool :=
  match find_question_by_id corpora qid with
  | none => (FavReply.questionNotFound, progress, false)
  | some _ =>
    if qid ∈ progress.favorites then
      (FavReply.already_favorited progress.favorites.length, progress, false)
    else
      (FavReply.favorited (progress.favorites ++ [qid]).length,
       { progress with favorites := progress.favorites ++ [qid] }, true)

/-- Reply of the unfavorite command; the command never consults a corpus, so
an unknown-question error cannot occur. -/
inductive UnfavReply where
  | unfavorited (total : Nat)
  | not_in_favorites
  deriving DecidableEq

/-- quiz.py cmd_unfavorite: removes the id when present and persists;
otherwise reports not_in_favorites without touching the record.  No corpus
lookup is performed (the function does not even receive the corpora). -/
def cmd_unfavorite (progress : Progress) (qid : Int) :
    UnfavReply × Progress × Bool :=
  if qid ∈ progress.favorites then
    (UnfavReply.unfavorited (progress.favorites.erase qid).length,
     { progress with favorites := progress.favorites.erase qid }, true)
  else
    (UnfavReply.not_in_favorites, progress, false)

/-! ## Randomness interface

The two randomized primitives of cmd_top500 become parameters.  Every
possible execution of Python's random.sample and random.shuffle satisfies the
two properties below, so theorems quantified over a context satisfying them
cover every invocation, and any particular instantiation satisfying them
(for example deterministic head-taking and the identity shuffle) is a
possible execution. -/

/-- A selection context: the randomized primitives of the Python runtime. -/
structure SelCtx where
  sample : List Question → Nat → List Question
  shuffle : List Question → List Question

/-- random.sample pool k (for k at most the pool size, the only way the code
calls it): returns exactly k elements, all drawn from the pool. -/
def SampleOK (sample : List Question → Nat → List Question) : Prop :=
  ∀ l k, (k ≤ l.length → (sample l k).length = k) ∧ (∀ x ∈ sample l k, x ∈ l)

/-- random.shuffle: the result is a permutation of the input. -/
def ShuffleOK (shuffle : List Question → List Question) : Prop :=
  ∀ l, (shuffle l).Perm l

/-- The deterministic instantiation: sampling takes the pool head, shuffling
is the identity.  Both are possible executions of the Python primitives. -/
def ctxTake : SelCtx where
  sample := fun l k => l.take k
  shuffle := fun l => l

/-! ## Curated subset (quiz.py cmd_top500, lines 554-620) -/

/-- The union of every category's answered_ids (cmd_top500 lines 561-563);
membership in this list is membership in the Python set. -/
def allAnsweredIds (p : Progress) : List Int :=
  (p.categories.map (fun kv => kv.2.answered_ids)).flatten

/-- The currently-wrong part of the corpus (cmd_top500 lines 569-572). -/
def wrongPool (questions : List Question) (wrongIds : List Int) : List Question :=
  questions.filter (fun q => decide (q.id ∈ wrongIds))

/-- The never-attempted part of the corpus (cmd_top500 lines 573-574). -/
def unansweredPool (questions : List Question) (wrongIds answeredIds : List Int) :
    List Question :=
  questions.filter (fun q => !(decide (q.id ∈ wrongIds)) && !(decide (q.id ∈ answeredIds)))

/-- The previously-answered-and-not-currently-wrong part of the corpus
(cmd_top500 lines 575-576). -/
def correctPool (questions : List Question) (wrongIds answeredIds : List Int) :
    List Question :=
  questions.filter (fun q => !(decide (q.id ∈ wrongIds)) && decide (q.id ∈ answeredIds))

/-- The distinct categories of a pool in first-seen order: the key order of
the by_cat dict built by cmd_top500 lines 587-589. -/
def catKeys : List Question → List String
  | [] => []
  | q :: rest => q.category :: (catKeys rest).filter (fun c => c != q.category)

/-- The per-category sampling loop of cmd_top500 lines 592-594: for each
category in dict order, sample min(per_cat, category size) questions of that
category. -/
def catPicks (ctx : SelCtx) (per_cat : Nat) (up : List Question) : List Question :=
  (catKeys up).flatMap (fun c =>
    ctx.sample (up.filter (fun q => q.category == c))
      (min per_cat (up.filter (fun q => q.category == c)).length))

/-- The total number of questions the per-category loop draws: the sum over
categories of min(per_cat, category size). -/
def quotaTake (per_cat : Nat) (up : List Question) : Nat :=
  ((catKeys up).map (fun c => min per_cat (up.filter (fun q => q.category == c)).length)).sum

/-- Steps (1)-(2) of the curated-subset algorithm (cmd_top500 lines 579-594):
all wrong questions, then, if still short of the 500 target and unanswered
questions exist, the category-balanced draw with quota
max(1, remaining div category count). -/
def stage2 (ctx : SelCtx) (questions : List Question) (wrongIds answeredIds : List Int) :
    List Question :=
  if 0 < 500 - (wrongPool questions wrongIds).length ∧
      unansweredPool questions wrongIds answeredIds ≠ [] then
    wrongPool questions wrongIds ++
      catPicks ctx
        (max 1 ((500 - (wrongPool questions wrongIds).length) /
          (catKeys (unansweredPool questions wrongIds answeredIds)).length))
        (unansweredPool questions wrongIds answeredIds)
  else wrongPool questions wrongIds

/-- Step (3) (cmd_top500 lines 597-600): if still short, fill from the
previously-answered-correctly pool. -/
def stage3 (ctx : SelCtx) (questions : List Question) (wrongIds answeredIds : List Int) :
    List Question :=
  if 0 < 500 - (stage2 ctx questions wrongIds answeredIds).length ∧
      correctPool questions wrongIds answeredIds ≠ [] then
    stage2 ctx questions wrongIds answeredIds ++
      ctx.sample (correctPool questions wrongIds answeredIds)
        (min (500 - (stage2 ctx questions wrongIds answeredIds).length)
          (correctPool questions wrongIds answeredIds).length)
  else stage2 ctx questions wrongIds answeredIds

/-- Step (4) (cmd_top500 lines 602-603): truncate to the 500 target, then
shuffle.  This is the curated set the command serves batches from. -/
def top500_curated (ctx : SelCtx) (questions : List Question)
    (wrongIds answeredIds : List Int) : List Question :=
  ctx.shuffle ((stage3 ctx questions wrongIds answeredIds).take 500)

/-- The composition counts of the top500 reply. -/
structure CompositionCounts where
  wrong : Nat
  unanswered : Nat
  reviewed : Nat
  deriving DecidableEq

/-- The top500 reply payload. -/
structure Top500Result where
  total_selected : Nat
  composition : CompositionCounts
  count : Nat
  questions : List Question
  deriving DecidableEq

/-- quiz.py cmd_top500 (lines 554-620): build the curated set, take the
requested batch from its head, and report composition counts.  As in the
source (lines 613-617), wrong counts the whole wrong pool and the
unanswered/reviewed counts are computed over the full curated set, not over
the returned batch. -/
def cmd_top500 (ctx : SelCtx) (questions : List Question) (progress : Progress)
    (countArg : Nat) : Top500Result :=
  let wrongIds := progress.wrong_questions
  let answeredIds := allAnsweredIds progress
  let selected := top500_curated ctx questions wrongIds answeredIds
  let count := min countArg selected.length
  { total_selected := selected.length
    composition :=
      { wrong := (wrongPool questions wrongIds).length
        unanswered := (selected.filter (fun q =>
            !(decide (q.id ∈ answeredIds)) && !(decide (q.id ∈ wrongIds)))).length
        reviewed := (selected.filter (fun q =>
            decide (q.id ∈ answeredIds) && !(decide (q.id ∈ wrongIds)))).length }
    count := count
    questions := selected.take count }

/-- Composition counts computed over a returned batch.  Modelled from the
spec: this is what the sentence "Composition counts reported to caller must
reflect the final returned batch" asks for, written down for comparison with
what cmd_top500 actually reports. -/
def batchComposition (wrongIds answeredIds : List Int) (batch : List Question) :
    CompositionCounts :=
  { wrong := (batch.filter (fun q => decide (q.id ∈ wrongIds))).length
    unanswered := (batch.filter (fun q =>
        !(decide (q.id ∈ answeredIds)) && !(decide (q.id ∈ wrongIds)))).length
    reviewed := (batch.filter (fun q =>
        decide (q.id ∈ answeredIds) && !(decide (q.id ∈ wrongIds)))).length }

/-! ## Difficulty ranking (quiz.py cmd_hard, lines 685-726) -/

/-- Lifetime error rate of a question (cmd_hard line 697). -/
def errorRate (s : QStat) : Rat := 1 - (s.correct : Rat) / (s.attempts : Rat)

/-- The scored pool of cmd_hard lines 693-698: every corpus question with a
stats entry recording at least one attempt, paired with that entry, in
corpus order.  The error rate and attempt count the source attaches are both
functions of the entry. -/
def hardScored (questions : List Question) (q_stats : List (String × QStat)) :
    List (Question × QStat) :=
  questions.filterMap (fun q =>
    match assocGet q_stats (toString q.id) with
    | some s => if 0 < s.attempts then some (q, s) else none
    | none => none)

/-- The ranking order of cmd_hard line 707 (sort key (-error_rate,
-attempts)): x ranks at or before y when x's error rate 1 - correct/attempts
is higher, or equal with at least as many attempts.  Comparing the error
rates 1 - cx/ax and 1 - cy/ay is comparing cy/ay with cx/ax, written here by
cross multiplication so the order is executable over the naturals; the
equivalence with the errorRate formulation is proved in
hardRel_iff_errorRate. -/
def hardRel (x y : Question × QStat) : Prop :=
  x.2.correct * y.2.attempts < y.2.correct * x.2.attempts
  ∨ (x.2.correct * y.2.attempts = y.2.correct * x.2.attempts
      ∧ y.2.attempts ≤ x.2.attempts)

instance : DecidableRel hardRel := fun x y => by
  unfold hardRel; infer_instance

instance : IsTotal (Question × QStat) hardRel where
  total x y := by
    unfold hardRel
    rcases Nat.lt_trichotomy (x.2.correct * y.2.attempts) (y.2.correct * x.2.attempts)
      with h | h | h
    · exact Or.inl (Or.inl h)
    · rcases Nat.le_total y.2.attempts x.2.attempts with hle | hle
      · exact Or.inl (Or.inr ⟨h, hle⟩)
      · exact Or.inr (Or.inr ⟨h.symm, hle⟩)
    · exact Or.inr (Or.inl h)

instance : IsTrans (Question × QStat) hardRel where
  trans x y z hxy hyz := by
    unfold hardRel at *
    rcases Nat.eq_zero_or_pos z.2.attempts with haz | haz
    · rcases Nat.eq_zero_or_pos (z.2.correct * x.2.attempts) with hzx | hzx
      · refine Or.inr ⟨?_, ?_⟩
        · rw [haz, Nat.mul_zero, hzx]
        · rw [haz]
          exact Nat.zero_le _
      · refine Or.inl ?_
        rw [haz, Nat.mul_zero]
        exact hzx
    · have hay : 0 < y.2.attempts := by
        rcases Nat.eq_zero_or_pos y.2.attempts with hay0 | hay0
        · rcases hyz with h | ⟨_, hle⟩
          · rw [hay0, Nat.mul_zero] at h
            exact absurd h (Nat.not_lt_zero _)
          · rw [hay0] at hle
            omega
        · exact hay0
      have hax : 0 < x.2.attempts := by
        rcases Nat.eq_zero_or_pos x.2.attempts with hax0 | hax0
        · rcases hxy with h | ⟨_, hle⟩
          · rw [hax0, Nat.mul_zero] at h
            exact absurd h (Nat.not_lt_zero _)
          · rw [hax0] at hle
            omega
        · exact hax0
      rcases hxy with h1 | ⟨e1, l1⟩ <;> rcases hyz with h2 | ⟨e2, l2⟩
      · refine Or.inl (Nat.lt_of_mul_lt_mul_left (a := y.2.attempts) ?_)
        calc y.2.attempts * (x.2.correct * z.2.attempts)
            = x.2.correct * y.2.attempts * z.2.attempts := by ring
          _ < y.2.correct * x.2.attempts * z.2.attempts :=
              Nat.mul_lt_mul_of_lt_of_le h1 (Nat.le_refl _) haz
          _ = y.2.correct * z.2.attempts * x.2.attempts := by ring
          _ ≤ z.2.correct * y.2.attempts * x.2.attempts :=
              Nat.mul_le_mul_right _ (Nat.le_of_lt h2)
          _ = y.2.attempts * (z.2.correct * x.2.attempts) := by ring
      · refine Or.inl (Nat.lt_of_mul_lt_mul_left (a := y.2.attempts) ?_)
        calc y.2.attempts * (x.2.correct * z.2.attempts)
            = x.2.correct * y.2.attempts * z.2.attempts := by ring
          _ < y.2.correct * x.2.attempts * z.2.attempts :=
              Nat.mul_lt_mul_of_lt_of_le h1 (Nat.le_refl _) haz
          _ = y.2.correct * z.2.attempts * x.2.attempts := by ring
          _ = z.2.correct * y.2.attempts * x.2.attempts := by rw [e2]
          _ = y.2.attempts * (z.2.correct * x.2.attempts) := by ring
      · refine Or.inl (Nat.lt_of_mul_lt_mul_left (a := y.2.attempts) ?_)
        calc y.2.attempts * (x.2.correct * z.2.attempts)
            = x.2.correct * y.2.attempts * z.2.attempts := by ring
          _ = y.2.correct * x.2.attempts * z.2.attempts := by rw [e1]
          _ = y.2.correct * z.2.attempts * x.2.attempts := by ring
          _ < z.2.correct * y.2.attempts * x.2.attempts :=
              Nat.mul_lt_mul_of_lt_of_le h2 (Nat.le_refl _) hax
          _ = y.2.attempts * (z.2.correct * x.2.attempts) := by ring
      · refine Or.inr ⟨Nat.eq_of_mul_eq_mul_left hay ?_, Nat.le_trans l2 l1⟩
        calc y.2.attempts * (x.2.correct * z.2.attempts)
            = x.2.correct * y.2.attempts * z.2.attempts := by ring
          _ = y.2.correct * x.2.attempts * z.2.attempts := by rw [e1]
          _ = y.2.correct * z.2.attempts * x.2.attempts := by ring
          _ = z.2.correct * y.2.attempts * x.2.attempts := by rw [e2]
          _ = y.2.attempts * (z.2.correct * x.2.attempts) := by ring

/-- The hard reply payload. -/
structure HardResult where
  total_with_stats : Nat
  count : Nat
  selected : List (Question × QStat)
  deriving DecidableEq

/-- quiz.py cmd_hard (lines 685-726): none models the no-statistics message.
The Python list.sort is a stable sort on the key (-error_rate, -attempts);
insertionSort on hardRel is a stable sort on the same order, so both produce
the same list. -/
def cmd_hard (questions : List Question) (q_stats : List (String × QStat))
    (count : Nat) : Option HardResult :=
  let scored := hardScored questions q_stats
  if scored = [] then none
  else
    let sorted := List.insertionSort hardRel scored
    some { total_with_stats := scored.length
           count := min count scored.length
           selected := sorted.take (min count scored.length) }

/-! ## Concrete instances used by counterexamples and witnesses -/

/-- A question with the given id and category; the remaining fields are
irrelevant to selection. -/
def mkQuestion (i : Nat) (cat : String) : Question :=
  { id := Int.ofNat i
    subject := 1
    category := cat
    qtype := "single"
    question := "q"
    options := ["A", "B"]
    answer := "A"
    explanation := "e" }

/-- The nine singleton categories of the skewed 600-question corpus. -/
def cexCats : List String := ["B", "C", "D", "E", "F", "G", "H", "I", "J"]

/-- Skewed corpus, question i: ids 1-50 are the wrong questions; ids 51-59
are nine never-attempted singleton categories; ids 60-600 all share category
A. -/
def cexQuestion (i : Nat) : Question :=
  mkQuestion i (if i < 51 then "A" else if i < 60 then cexCats.getD (i - 51) "A" else "A")

/-- The skewed 600-question corpus: 50 wrong, 550 never attempted spread over
10 categories of sizes 541, 1, ..., 1, nobody answered correctly. -/
def cexCorpus : List Question := (List.range 600).map (fun i => cexQuestion (i + 1))

/-- Ids 1-50: the currently-wrong set of both 600-question scenarios. -/
def scenarioWrongIds : List Int := (List.range 50).map (fun i => Int.ofNat (i + 1))

/-- The ten categories of the balanced 600-question corpus. -/
def witCats : List String := ["A", "B", "C", "D", "E", "F", "G", "H", "I", "J"]

/-- Balanced corpus, question i: ids 1-50 are the wrong questions; ids 51-600
are 10 never-attempted categories of 55 questions each. -/
def witQuestion (i : Nat) : Question :=
  mkQuestion i (if i < 51 then "A" else witCats.getD ((i - 51) / 55) "A")

/-- The balanced 600-question corpus. -/
def witCorpus : List Question := (List.range 600).map (fun i => witQuestion (i + 1))

/-- A two-question corpus in which both questions are currently wrong. -/
def c1Corpus : List Question := [mkQuestion 1 "A", mkQuestion 2 "A"]

/-- Progress with both c1Corpus questions in the currently-wrong set. -/
def c1Progress : Progress := { default_progress with wrong_questions := [1, 2] }

/-- A judge question whose stored answer is 对. -/
def exJudgeQ : Question :=
  { id := 10001
    subject := 1
    category := "A"
    qtype := "judge"
    question := "q"
    options := []
    answer := "对"
    explanation := "e" }

/-- A twelve-question corpus for the sequential scenario. -/
def seqCorpus : List Question := (List.range 12).map (fun i => mkQuestion (i + 1) "A")

/-- Progress whose favorites hold id 5, which exists in no corpus. -/
def orphanFavProgress : Progress := { default_progress with favorites := [5] }

/-- The two-question corpus of the hard-mode example. -/
def exHardQs : List Question := [mkQuestion 1 "A", mkQuestion 2 "A"]

/-- Stats of the hard-mode example: id 1 has 3 of 10 correct (70 percent
error), id 2 has 8 of 10 correct (20 percent error). -/
def exHardStats : List (String × QStat) :=
  [("1", { attempts := 10, correct := 3 }), ("2", { attempts := 10, correct := 8 })]

/-- The reply cmd_hard produces on the hard-mode example. -/
def exHardResult : HardResult :=
  { total_with_stats := 2
    count := 2
    selected := [(mkQuestion 1 "A", { attempts := 10, correct := 3 }),
                 (mkQuestion 2 "A", { attempts := 10, correct := 8 })] }

/-- A raw progress record from an old schema: the three repaired fields are
absent, and so is mock_exams. -/
def rawMissing : RawProgress :=
  { total_answered := some 3
    total_correct := some 2
    categories := some []
    wrong_questions := some [9]
    favorites := none
    sequential_pos := none
    question_stats := none
    mock_exams := none }

/-- Progress whose currently-wrong set holds exactly id 7. -/
def wrongSevenProgress : Progress := { default_progress with wrong_questions := [7] }

/-- A one-question corpus holding question id 5, used to exercise favoriting
an id that both resolves and is already favorited. -/
def favCorpus : List Question := [mkQuestion 5 "A"]

/-! ## Helper lemmas -/

/-- The deterministic sampler satisfies the random.sample contract. -/
theorem takeSampleOK : SampleOK ctxTake.sample := by
  intro l k
  refine ⟨fun hk => ?_, fun x hx => ?_⟩
  · simp only [ctxTake, List.length_take]
    omega
  · exact List.mem_of_mem_take hx

/-- The identity shuffle satisfies the random.shuffle contract. -/
theorem idShuffleOK : ShuffleOK ctxTake.shuffle :=
  fun l => List.Perm.refl l

/-- Reading a key immediately after writing it returns the written value. -/
theorem assocGet_assocSet {β : Type} (l : List (String × β)) (k : String) (v : β) :
    assocGet (assocSet l k v) k = some v := by
  induction l with
  | nil => simp [assocSet, assocGet]
  | cons kv rest ih =>
    by_cases hk : kv.1 = k
    · simp [assocSet, hk, assocGet]
    · simp [assocSet, hk, assocGet, ih]

/-- Any list keeps its nodup property under the wrong_questions update, for
either correctness outcome. -/
theorem updateWrong_nodup (wrong : List Int) (qid : Int) (b : Bool)
    (h : wrong.Nodup) : (updateWrongQuestions wrong qid b).Nodup := by
  unfold updateWrongQuestions
  split_ifs with h1 h2 h3
  · exact h.erase qid
  · exact h
  · exact h
  · rw [List.nodup_append]
    refine ⟨h, List.nodup_singleton qid, ?_⟩
    intro x hx hx2
    simp only [List.mem_singleton] at hx2
    subst hx2
    exact h3 hx

/-- Every category name produced by catKeys is the category of some pool
member. -/
theorem catKeys_mem_exists {c : String} :
    ∀ {l : List Question}, c ∈ catKeys l → ∃ q ∈ l, q.category = c := by
  intro l
  induction l with
  | nil => intro h; simp [catKeys] at h
  | cons q rest ih =>
    intro h
    rw [catKeys] at h
    rcases List.mem_cons.1 h with h1 | h1
    · exact ⟨q, List.mem_cons_self q rest, h1.symm⟩
    · obtain ⟨q2, hq2, hcq⟩ := ih (List.mem_of_mem_filter h1)
      exact ⟨q2, List.mem_cons_of_mem q hq2, hcq⟩

/-- Under the random.sample contract, the category-balanced draw has exactly
the quota-limited length. -/
theorem catPicks_length (ctx : SelCtx) (hs : SampleOK ctx.sample)
    (per_cat : Nat) (up : List Question) :
    (catPicks ctx per_cat up).length = quotaTake per_cat up := by
  unfold catPicks quotaTake
  rw [List.length_flatMap]
  congr 1
  apply List.map_congr_left
  intro c _
  simp only [Function.comp_apply]
  exact (hs _ _).1 (min_le_right _ _)

/-- A list of naturals bounded by n sums to at most n times its length. -/
theorem sum_le_length_mul (n : Nat) :
    ∀ l : List Nat, (∀ x ∈ l, x ≤ n) → l.sum ≤ l.length * n := by
  intro l
  induction l with
  | nil => intro _; simp
  | cons a rest ih =>
    intro h
    have h1 := h a (List.mem_cons_self a rest)
    have h2 := ih (fun x hx => h x (List.mem_cons_of_mem a hx))
    simp only [List.sum_cons, List.length_cons, Nat.succ_mul]
    omega

/-- The quota-limited draw size is at most the category count times the
quota. -/
theorem quotaTake_le (per_cat : Nat) (up : List Question) :
    quotaTake per_cat up ≤ (catKeys up).length * per_cat := by
  unfold quotaTake
  have h := sum_le_length_mul per_cat
    ((catKeys up).map (fun c => min per_cat (up.filter (fun q => q.category == c)).length))
    (by
      intro x hx
      obtain ⟨c, _, rfl⟩ := List.mem_map.1 hx
      exact min_le_left _ _)
  simpa using h

/-- Every question list splits into its unanswered, reviewed, and wrong parts
under the three filters cmd_top500 counts with. -/
theorem filter_three_way_partition (wrongIds answeredIds : List Int) (l : List Question) :
    (l.filter (fun q => !(decide (q.id ∈ answeredIds)) && !(decide (q.id ∈ wrongIds)))).length
      + (l.filter (fun q => decide (q.id ∈ answeredIds) && !(decide (q.id ∈ wrongIds)))).length
      + (l.filter (fun q => decide (q.id ∈ wrongIds))).length = l.length := by
  induction l with
  | nil => rfl
  | cons q rest ih =>
    by_cases hw : q.id ∈ wrongIds <;> by_cases ha : q.id ∈ answeredIds <;>
      simp [List.filter_cons, hw, ha] <;>
      omega

/-! ## Claim theorems -/

/-- Claim C3, counterexample: a persisted record missing mock_exams is not
repaired by loading (ensure_fields leaves the field absent), and the
subsequent record-exam operation errors on the absent field instead of
treating it as a default. -/
theorem ensure_fields_missing_counterexample :
    (ensure_fields (load_progress (some rawMissing))).mock_exams = none
    ∧ cmd_record_exam (load_progress (some rawMissing)) "2026-10-12 10:00" "c1" 1 95 100 = none :=
  ⟨rfl, rfl⟩

/-- Claim C3, amended: loading initializes exactly the three fields
favorites, sequential_pos, and question_stats to their defaults when missing
(keeping them when present); the other five top-level fields
(total_answered, total_correct, categories, wrong_questions, mock_exams) are
passed through unchanged, absent or not. -/
theorem ensure_fields_repairs_exactly_three (raw : RawProgress) :
    (ensure_fields raw).favorites = some (raw.favorites.getD [])
    ∧ (ensure_fields raw).sequential_pos = some (raw.sequential_pos.getD [])
    ∧ (ensure_fields raw).question_stats = some (raw.question_stats.getD [])
    ∧ (ensure_fields raw).total_answered = raw.total_answered
    ∧ (ensure_fields raw).total_correct = raw.total_correct
    ∧ (ensure_fields raw).categories = raw.categories
    ∧ (ensure_fields raw).wrong_questions = raw.wrong_questions
    ∧ (ensure_fields raw).mock_exams = raw.mock_exams :=
  ⟨rfl, rfl, rfl, rfl, rfl, rfl, rfl, rfl⟩

/-- Claim C8: checking an id that no corpus question carries reports the
unknown-question error, returns the progress record entirely unchanged, and
does not persist anything. -/
theorem check_unknown_id_untouched (corpora : List Question) (p : Progress)
    (qid : Int) (ans : String) (h : ∀ q ∈ corpora, q.id ≠ qid) :
    cmd_check corpora p qid ans = (CheckReply.questionNotFound, p, false) := by
  have hfind : find_question_by_id corpora qid = none := by
    unfold find_question_by_id
    rw [List.find?_eq_none]
    intro q hq
    simpa using h q hq
  unfold cmd_check
  rw [hfind]

/-- Witness for claim C8 at a concrete input. -/
theorem check_unknown_id_untouched_witness :
    (∀ q ∈ c1Corpus, q.id ≠ (999 : Int))
    ∧ cmd_check c1Corpus default_progress 999 "A"
        = (CheckReply.questionNotFound, default_progress, false) :=
  ⟨by decide, check_unknown_id_untouched c1Corpus default_progress 999 "A" (by decide)⟩

/-- Claim C10: unfavoriting an id that is not in favorites (the id need not
exist in any corpus; the command takes no corpus at all and so can never
report an unknown question) reports not_in_favorites, leaves the record
unchanged, and does not persist. -/
theorem unfavorite_absent_id_no_lookup (p : Progress) (qid : Int)
    (h : qid ∉ p.favorites) :
    cmd_unfavorite p qid = (UnfavReply.not_in_favorites, p, false) := by
  unfold cmd_unfavorite
  rw [if_neg h]

/-- Witness for claim C10: id 7 is absent from the favorites, and id 7
exists in no corpus. -/
theorem unfavorite_absent_id_no_lookup_witness :
    ((7 : Int) ∉ orphanFavProgress.favorites)
    ∧ cmd_unfavorite orphanFavProgress 7
        = (UnfavReply.not_in_favorites, orphanFavProgress, false) :=
  ⟨by decide, unfavorite_absent_id_no_lookup orphanFavProgress 7 (by decide)⟩

/-- Claim C9, counterexample: id 5 is already in the favorites but exists in
no corpus, and favoriting it reports the unknown-question error rather than
already_favorited, because cmd_favorite resolves the id against the corpora
before looking at the favorites. -/
theorem favorite_orphan_counterexample :
    (5 : Int) ∈ orphanFavProgress.favorites
    ∧ (cmd_favorite [] orphanFavProgress 5).1 = FavReply.questionNotFound
    ∧ (cmd_favorite [] orphanFavProgress 5).1
        ≠ FavReply.already_favorited orphanFavProgress.favorites.length :=
  ⟨by decide, by decide, by decide⟩

/-- Claim C9, amended: for an id that resolves in some corpus and is already
in the favorites, favoriting reports already_favorited, changes nothing, and
does not persist; and for any progress record with duplicate-free favorites,
favoriting any id keeps the favorites duplicate-free. -/
theorem favorite_idempotent_when_resolvable (corpora : List Question)
    (p : Progress) (qid : Int) (q : Question)
    (hfind : find_question_by_id corpora qid = some q)
    (hmem : qid ∈ p.favorites) :
    cmd_favorite corpora p qid
      = (FavReply.already_favorited p.favorites.length, p, false)
    ∧ ∀ p2 : Progress, p2.favorites.Nodup →
        ((cmd_favorite corpora p2 qid).2.1).favorites.Nodup := by
  constructor
  · unfold cmd_favorite
    rw [hfind]
    simp only [if_pos hmem]
  · intro p2 hnd
    unfold cmd_favorite
    rw [hfind]
    by_cases hm : qid ∈ p2.favorites
    · simp only [if_pos hm]
      exact hnd
    · simp only [if_neg hm]
      rw [List.nodup_append]
      refine ⟨hnd, List.nodup_singleton qid, ?_⟩
      intro x hx hx2
      simp only [List.mem_singleton] at hx2
      subst hx2
      exact hm hx

/-- Witness for the amended claim C9 at a concrete input. -/
theorem favorite_idempotent_when_resolvable_witness :
    find_question_by_id favCorpus 5 = some (mkQuestion 5 "A")
    ∧ (5 : Int) ∈ orphanFavProgress.favorites
    ∧ cmd_favorite favCorpus orphanFavProgress 5
        = (FavReply.already_favorited orphanFavProgress.favorites.length,
           orphanFavProgress, false) :=
  ⟨by decide, by decide,
    (favorite_idempotent_when_resolvable favCorpus orphanFavProgress 5
      (mkQuestion 5 "A") (by decide) (by decide)).1⟩

/-- Claim C6: on a judge question whose stored answer is the canonical 对 or
错, every synonym spelling scores exactly as the canonical spelling it
normalizes to. -/
theorem judge_synonym_equivalence (q : Question) (hj : q.qtype = "judge")
    (ha : q.answer = "对" ∨ q.answer = "错") :
    answerIsCorrect q "正确" = answerIsCorrect q "对"
    ∧ answerIsCorrect q "TRUE" = answerIsCorrect q "对"
    ∧ answerIsCorrect q "RIGHT" = answerIsCorrect q "对"
    ∧ answerIsCorrect q "错误" = answerIsCorrect q "错"
    ∧ answerIsCorrect q "FALSE" = answerIsCorrect q "错"
    ∧ answerIsCorrect q "WRONG" = answerIsCorrect q "错" := by
  obtain ⟨i, s, c, t, qq, o, a, e⟩ := q
  simp only at hj ha
  subst hj
  rcases ha with h | h <;> subst h <;> exact ⟨rfl, rfl, rfl, rfl, rfl, rfl⟩

/-- Witness for claim C6 at a concrete judge question. -/
theorem judge_synonym_equivalence_witness :
    exJudgeQ.qtype = "judge" ∧ exJudgeQ.answer = "对"
    ∧ answerIsCorrect exJudgeQ "TRUE" = answerIsCorrect exJudgeQ "对"
    ∧ answerIsCorrect exJudgeQ "WRONG" = answerIsCorrect exJudgeQ "错" :=
  ⟨rfl, rfl, (judge_synonym_equivalence exJudgeQ rfl (Or.inl rfl)).2.1,
    (judge_synonym_equivalence exJudgeQ rfl (Or.inl rfl)).2.2.2.2.2⟩

/-- Claim C4: starting from a duplicate-free currently-wrong set, checking
the question correctly leaves its id absent (erasing it when present,
keeping the set when absent), checking it incorrectly leaves the id present
exactly once (appending only when absent), and the set stays duplicate-free
after any check, including through the full check command. -/
theorem check_wrong_no_duplicates (p : Progress) (q : Question)
    (h : p.wrong_questions.Nodup) :
    q.id ∉ (checkProgressUpdate p q true).wrong_questions
    ∧ List.count q.id ((checkProgressUpdate p q false).wrong_questions) = 1
    ∧ (q.id ∈ p.wrong_questions →
        (checkProgressUpdate p q false).wrong_questions = p.wrong_questions)
    ∧ (q.id ∈ p.wrong_questions →
        (checkProgressUpdate p q true).wrong_questions = p.wrong_questions.erase q.id)
    ∧ (∀ b : Bool, ((checkProgressUpdate p q b).wrong_questions).Nodup)
    ∧ (∀ corpora qid ans, (((cmd_check corpora p qid ans).2.1).wrong_questions).Nodup) := by
  have hw : ∀ b, (checkProgressUpdate p q b).wrong_questions
      = updateWrongQuestions p.wrong_questions q.id b := fun b => rfl
  refine ⟨?_, ?_, ?_, ?_, ?_, ?_⟩
  · rw [hw]
    show q.id ∉ (if q.id ∈ p.wrong_questions then p.wrong_questions.erase q.id
      else p.wrong_questions)
    split_ifs with hm
    · exact List.Nodup.not_mem_erase h
    · exact hm
  · rw [hw]
    show List.count q.id (if q.id ∈ p.wrong_questions then p.wrong_questions
      else p.wrong_questions ++ [q.id]) = 1
    split_ifs with hm
    · exact List.count_eq_one_of_mem h hm
    · rw [List.count_append]
      rw [List.count_eq_zero_of_not_mem hm]
      simp
  · intro hm
    rw [hw]
    show (if q.id ∈ p.wrong_questions then p.wrong_questions
      else p.wrong_questions ++ [q.id]) = p.wrong_questions
    rw [if_pos hm]
  · intro hm
    rw [hw]
    show (if q.id ∈ p.wrong_questions then p.wrong_questions.erase q.id
      else p.wrong_questions) = p.wrong_questions.erase q.id
    rw [if_pos hm]
  · intro b
    rw [hw]
    exact updateWrong_nodup p.wrong_questions q.id b h
  · intro corpora qid ans
    unfold cmd_check
    cases hf : find_question_by_id corpora qid with
    | none => exact h
    | some q2 => exact updateWrong_nodup p.wrong_questions q2.id _ h

/-- Witness for claim C4 at a concrete input: progress whose wrong set is
exactly the id being checked. -/
theorem check_wrong_no_duplicates_witness :
    (wrongSevenProgress.wrong_questions).Nodup
    ∧ (mkQuestion 7 "A").id ∉ (checkProgressUpdate wrongSevenProgress (mkQuestion 7 "A") true).wrong_questions
    ∧ List.count (mkQuestion 7 "A").id
        ((checkProgressUpdate wrongSevenProgress (mkQuestion 7 "A") false).wrong_questions) = 1 :=
  ⟨by decide,
    (check_wrong_no_duplicates wrongSevenProgress (mkQuestion 7 "A") (by decide)).1,
    (check_wrong_no_duplicates wrongSevenProgress (mkQuestion 7 "A") (by decide)).2.1⟩

/-- Claim C5: on a 12-question corpus with cursor 0, a count-5 call serves
the first five questions, reports position 1 and end position 5, and
persists cursor 5; the next call serves questions 6 through 10 and persists
cursor 10; with the cursor at the corpus length 12 the command reports
completion and returns the record unchanged. -/
theorem sequential_resume_scenario (questions : List Question) (p : Progress)
    (key : String) (h12 : questions.length = 12)
    (h0 : (assocGet p.sequential_pos key).getD 0 = 0) :
    cmd_sequential questions p key 5 false
      = (SeqReply.batch 1 5 12 7 5 (questions.take 5),
         { p with sequential_pos := assocSet p.sequential_pos key 5 })
    ∧ (assocGet (assocSet p.sequential_pos key 5) key).getD 0 = 5
    ∧ cmd_sequential questions
        { p with sequential_pos := assocSet p.sequential_pos key 5 } key 5 false
      = (SeqReply.batch 6 10 12 2 5 ((questions.drop 5).take 5),
         { p with sequential_pos := assocSet (assocSet p.sequential_pos key 5) key 10 })
    ∧ (assocGet (assocSet (assocSet p.sequential_pos key 5) key 10) key).getD 0 = 10
    ∧ (∀ p2 : Progress, (assocGet p2.sequential_pos key).getD 0 = 12 →
        cmd_sequential questions p2 key 5 false = (SeqReply.completed 12 12, p2)) := by
  refine ⟨?_, ?_, ?_, ?_, ?_⟩
  · unfold cmd_sequential
    simp only [Bool.false_eq_true, if_false, h0]
    rw [if_neg (by omega)]
    simp [List.length_take, List.length_drop, h12, List.drop_zero]
  · rw [assocGet_assocSet]
    rfl
  · unfold cmd_sequential
    simp only [Bool.false_eq_true, if_false, assocGet_assocSet, Option.getD_some]
    rw [if_neg (by omega)]
    simp [List.length_take, List.length_drop, h12]
  · rw [assocGet_assocSet]
    rfl
  · intro p2 h2
    unfold cmd_sequential
    simp only [Bool.false_eq_true, if_false, h2]
    rw [if_pos (by omega)]
    rw [h12]

/-- Witness for claim C5 on a concrete 12-question corpus with a fresh
progress record. -/
theorem sequential_resume_scenario_witness :
    seqCorpus.length = 12
    ∧ (assocGet default_progress.sequential_pos "c1_subject1").getD 0 = 0
    ∧ cmd_sequential seqCorpus default_progress "c1_subject1" 5 false
        = (SeqReply.batch 1 5 12 7 5 (seqCorpus.take 5),
           { default_progress with
              sequential_pos := assocSet default_progress.sequential_pos "c1_subject1" 5 }) :=
  ⟨by decide, rfl,
    (sequential_resume_scenario seqCorpus default_progress "c1_subject1"
      (by decide) rfl).1⟩

/-- Claim C1, counterexample: on a two-question corpus whose questions are
both currently wrong and a batch request of one, the reported composition
says wrong = 2 although the returned batch (of size min(1, 2) = 1) holds
exactly one wrong question, so the reported counts do not describe the
returned batch.  The deterministic context is a possible execution of the
randomized primitives. -/
theorem top500_composition_counterexample :
    SampleOK ctxTake.sample ∧ ShuffleOK ctxTake.shuffle
    ∧ (cmd_top500 ctxTake c1Corpus c1Progress 1).count
        = min 1 (cmd_top500 ctxTake c1Corpus c1Progress 1).total_selected
    ∧ (cmd_top500 ctxTake c1Corpus c1Progress 1).composition.wrong = 2
    ∧ (batchComposition c1Progress.wrong_questions (allAnsweredIds c1Progress)
        ((cmd_top500 ctxTake c1Corpus c1Progress 1).questions)).wrong = 1
    ∧ (cmd_top500 ctxTake c1Corpus c1Progress 1).composition
        ≠ batchComposition c1Progress.wrong_questions (allAnsweredIds c1Progress)
            ((cmd_top500 ctxTake c1Corpus c1Progress 1).questions) :=
  ⟨takeSampleOK, idShuffleOK, by decide, by decide, by decide, by decide⟩

/-- Claim C1, amended: the composition counts describe the full curated set,
not the returned batch: wrong is the size of the whole wrong pool (even any
part the truncation to 500 drops), unanswered and reviewed are counted over
the full curated set, and they partition the curated set together with its
wrong members; the batch is the count-prefix of the curated set, with count
min(requested, curated size). -/
theorem top500_composition_describes_curated_set (ctx : SelCtx)
    (questions : List Question) (p : Progress) (countArg : Nat) :
    (cmd_top500 ctx questions p countArg).composition.wrong
      = (wrongPool questions p.wrong_questions).length
    ∧ (cmd_top500 ctx questions p countArg).composition.unanswered
      = ((top500_curated ctx questions p.wrong_questions (allAnsweredIds p)).filter
          (fun q => !(decide (q.id ∈ allAnsweredIds p)) && !(decide (q.id ∈ p.wrong_questions)))).length
    ∧ (cmd_top500 ctx questions p countArg).composition.reviewed
      = ((top500_curated ctx questions p.wrong_questions (allAnsweredIds p)).filter
          (fun q => decide (q.id ∈ allAnsweredIds p) && !(decide (q.id ∈ p.wrong_questions)))).length
    ∧ (cmd_top500 ctx questions p countArg).composition.unanswered
        + (cmd_top500 ctx questions p countArg).composition.reviewed
        + ((top500_curated ctx questions p.wrong_questions (allAnsweredIds p)).filter
            (fun q => decide (q.id ∈ p.wrong_questions))).length
      = (cmd_top500 ctx questions p countArg).total_selected
    ∧ (cmd_top500 ctx questions p countArg).count
      = min countArg (top500_curated ctx questions p.wrong_questions (allAnsweredIds p)).length
    ∧ (cmd_top500 ctx questions p countArg).questions
      = (top500_curated ctx questions p.wrong_questions (allAnsweredIds p)).take
          ((cmd_top500 ctx questions p countArg).count) :=
  ⟨rfl, rfl, rfl,
    filter_three_way_partition p.wrong_questions (allAnsweredIds p)
      (top500_curated ctx questions p.wrong_questions (allAnsweredIds p)),
    rfl, rfl⟩

/-- The executable cross-multiplication order is exactly the descending
(error rate, attempts) order on entries with at least one attempt. -/
theorem hardRel_iff_errorRate (x y : Question × QStat)
    (hx : 0 < x.2.attempts) (hy : 0 < y.2.attempts) :
    hardRel x y ↔ (errorRate y.2 < errorRate x.2
      ∨ (errorRate x.2 = errorRate y.2 ∧ y.2.attempts ≤ x.2.attempts)) := by
  have hx' : (0 : Rat) < x.2.attempts := by exact_mod_cast hx
  have hy' : (0 : Rat) < y.2.attempts := by exact_mod_cast hy
  have hlt : errorRate y.2 < errorRate x.2
      ↔ x.2.correct * y.2.attempts < y.2.correct * x.2.attempts := by
    unfold errorRate
    rw [sub_lt_sub_iff_left, div_lt_div_iff₀ hx' hy']
    exact_mod_cast Iff.rfl
  have heq : errorRate x.2 = errorRate y.2
      ↔ x.2.correct * y.2.attempts = y.2.correct * x.2.attempts := by
    unfold errorRate
    rw [sub_right_inj, div_eq_div_iff (ne_of_gt hx') (ne_of_gt hy')]
    exact_mod_cast Iff.rfl
  unfold hardRel
  rw [hlt, heq]

/-- Claim C7: the eligible pool of the hard strategy is exactly the corpus
questions with a stats entry recording at least one attempt; the reply is
the top min(count, pool) of that pool under descending error rate (with
descending attempt count as the tie-break, the order hardRel, which on the
pool coincides with the errorRate order): the reply is sorted by that order,
drawn from the pool, and ranks at or before every pool entry left out. -/
theorem hard_ranks_by_error_rate (questions : List Question)
    (q_stats : List (String × QStat)) (count : Nat) (r : HardResult)
    (h : cmd_hard questions q_stats count = some r) :
    (∀ x : Question × QStat,
        x ∈ hardScored questions q_stats ↔
          x.1 ∈ questions ∧ assocGet q_stats (toString x.1.id) = some x.2
            ∧ 0 < x.2.attempts)
    ∧ (∀ x y : Question × QStat, 0 < x.2.attempts → 0 < y.2.attempts →
        (hardRel x y ↔ (errorRate y.2 < errorRate x.2
          ∨ (errorRate x.2 = errorRate y.2 ∧ y.2.attempts ≤ x.2.attempts))))
    ∧ r.count = min count (hardScored questions q_stats).length
    ∧ r.selected.length = r.count
    ∧ List.Sorted hardRel r.selected
    ∧ (∀ x ∈ r.selected, x ∈ hardScored questions q_stats)
    ∧ (∀ a ∈ r.selected, ∀ b ∈ hardScored questions q_stats,
        b ∉ r.selected → hardRel a b) := by
  have hpool : ∀ x : Question × QStat,
      x ∈ hardScored questions q_stats ↔
        x.1 ∈ questions ∧ assocGet q_stats (toString x.1.id) = some x.2
          ∧ 0 < x.2.attempts := by
    intro x
    constructor
    · intro hx
      rw [hardScored, List.mem_filterMap] at hx
      obtain ⟨q, hq, hfx⟩ := hx
      cases hs : assocGet q_stats (toString q.id) with
      | none => rw [hs] at hfx; cases hfx
      | some s =>
        rw [hs] at hfx
        dsimp only at hfx
        by_cases hat : 0 < s.attempts
        · rw [if_pos hat] at hfx
          obtain rfl := Option.some.inj hfx
          exact ⟨hq, hs, hat⟩
        · rw [if_neg hat] at hfx
          cases hfx
    · rintro ⟨hq, hs, hat⟩
      rw [hardScored, List.mem_filterMap]
      refine ⟨x.1, hq, ?_⟩
      rw [hs]
      dsimp only
      rw [if_pos hat]
  have hperm := List.perm_insertionSort hardRel (hardScored questions q_stats)
  have hsorted := List.sorted_insertionSort hardRel (hardScored questions q_stats)
  by_cases hsc : hardScored questions q_stats = []
  · simp only [cmd_hard, if_pos hsc] at h
    cases h
  · simp only [cmd_hard, if_neg hsc] at h
    obtain rfl := Option.some.inj h
    refine ⟨hpool, fun x y hx hy => hardRel_iff_errorRate x y hx hy, rfl, ?_, ?_, ?_, ?_⟩
    · show ((List.insertionSort hardRel (hardScored questions q_stats)).take
        (min count (hardScored questions q_stats).length)).length
        = min count (hardScored questions q_stats).length
      rw [List.length_take, hperm.length_eq]
      omega
    · exact List.Pairwise.sublist (List.take_sublist _ _) hsorted
    · intro x hx
      exact hperm.mem_iff.mp (List.mem_of_mem_take hx)
    · intro a ha b hb hbn
      have hbs : b ∈ List.insertionSort hardRel (hardScored questions q_stats) :=
        hperm.mem_iff.mpr hb
      have hsplit := List.take_append_drop (min count (hardScored questions q_stats).length)
        (List.insertionSort hardRel (hardScored questions q_stats))
      have hpw : List.Pairwise hardRel
          ((List.insertionSort hardRel (hardScored questions q_stats)).take
              (min count (hardScored questions q_stats).length)
            ++ (List.insertionSort hardRel (hardScored questions q_stats)).drop
              (min count (hardScored questions q_stats).length)) := by
        rw [hsplit]
        exact hsorted
      rw [List.pairwise_append] at hpw
      have hbd : b ∈ (List.insertionSort hardRel (hardScored questions q_stats)).drop
          (min count (hardScored questions q_stats).length) := by
        have hmem : b ∈ (List.insertionSort hardRel (hardScored questions q_stats)).take
            (min count (hardScored questions q_stats).length)
            ++ (List.insertionSort hardRel (hardScored questions q_stats)).drop
              (min count (hardScored questions q_stats).length) := by
          rw [hsplit]
          exact hbs
        rcases List.mem_append.1 hmem with h1 | h1
        · exact absurd h1 hbn
        · exact h1
      exact hpw.2.2 a ha b hbd

/-- Witness for claim C7: with stats 3 of 10 correct on id 1 and 8 of 10
correct on id 2, the reply ranks id 1 (70 percent error) before id 2 (20
percent error). -/
theorem hard_ranks_by_error_rate_witness :
    cmd_hard exHardQs exHardStats 10 = some exHardResult
    ∧ exHardResult.selected.map (fun x => x.1.id) = [1, 2]
    ∧ List.Sorted hardRel exHardResult.selected
    ∧ exHardResult.count = min 10 (hardScored exHardQs exHardStats).length := by
  have h : cmd_hard exHardQs exHardStats 10 = some exHardResult := by decide
  exact ⟨h, by decide,
    (hard_ranks_by_error_rate exHardQs exHardStats 10 exHardResult h).2.2.2.2.1,
    (hard_ranks_by_error_rate exHardQs exHardStats 10 exHardResult h).2.2.1⟩

/-- Under the scenario hypotheses (50 wrong in the corpus, 10 unanswered
categories), step (2) runs with the per-category quota
max(1, (500 - 50) div 10) = 45. -/
theorem stage2_eq (ctx : SelCtx) (questions : List Question)
    (wrongIds answeredIds : List Int)
    (hw : (wrongPool questions wrongIds).length = 50)
    (hc : (catKeys (unansweredPool questions wrongIds answeredIds)).length = 10) :
    stage2 ctx questions wrongIds answeredIds
      = wrongPool questions wrongIds
        ++ catPicks ctx 45 (unansweredPool questions wrongIds answeredIds) := by
  have hup : unansweredPool questions wrongIds answeredIds ≠ [] := by
    intro he
    rw [he] at hc
    simp [catKeys] at hc
  unfold stage2
  rw [if_pos ⟨by omega, hup⟩]
  rw [hw, hc]
  norm_num

/-- Under the scenario hypotheses plus the coverage hypothesis (the
quota-limited unanswered draw and the correct pool together cover the 450
remaining places), step (3) ends with exactly 500 questions. -/
theorem stage3_length (ctx : SelCtx) (hs : SampleOK ctx.sample)
    (questions : List Question) (wrongIds answeredIds : List Int)
    (hw : (wrongPool questions wrongIds).length = 50)
    (hc : (catKeys (unansweredPool questions wrongIds answeredIds)).length = 10)
    (hcover : 450 ≤ quotaTake 45 (unansweredPool questions wrongIds answeredIds)
        + (correctPool questions wrongIds answeredIds).length) :
    (stage3 ctx questions wrongIds answeredIds).length = 500 := by
  have h2 : (stage2 ctx questions wrongIds answeredIds).length
      = 50 + quotaTake 45 (unansweredPool questions wrongIds answeredIds) := by
    rw [stage2_eq ctx questions wrongIds answeredIds hw hc, List.length_append, hw,
      catPicks_length ctx hs 45 (unansweredPool questions wrongIds answeredIds)]
  have hble : quotaTake 45 (unansweredPool questions wrongIds answeredIds) ≤ 450 := by
    have h := quotaTake_le 45 (unansweredPool questions wrongIds answeredIds)
    rw [hc] at h
    omega
  unfold stage3
  by_cases hq : quotaTake 45 (unansweredPool questions wrongIds answeredIds) = 450
  · rw [if_neg]
    · omega
    · rintro ⟨hlt, _⟩
      omega
  · have hcp : correctPool questions wrongIds answeredIds ≠ [] := by
      intro he
      rw [he] at hcover
      simp only [List.length_nil] at hcover
      omega
    rw [if_pos ⟨by omega, hcp⟩]
    rw [List.length_append]
    have hsl : (ctx.sample (correctPool questions wrongIds answeredIds)
        (min (500 - (stage2 ctx questions wrongIds answeredIds).length)
          (correctPool questions wrongIds answeredIds).length)).length
        = min (500 - (stage2 ctx questions wrongIds answeredIds).length)
          (correctPool questions wrongIds answeredIds).length :=
      (hs _ _).1 (min_le_right _ _)
    rw [hsl]
    omega

/-- Under the scenario hypotheses alone, step (3) never exceeds the 500
target: the wrong pool holds 50 questions, the quota-limited draw at most
450, and the fill never takes more than the remaining places, so the
truncation to 500 is a no-op in this scenario. -/
theorem stage3_length_le (ctx : SelCtx) (hs : SampleOK ctx.sample)
    (questions : List Question) (wrongIds answeredIds : List Int)
    (hw : (wrongPool questions wrongIds).length = 50)
    (hc : (catKeys (unansweredPool questions wrongIds answeredIds)).length = 10) :
    (stage3 ctx questions wrongIds answeredIds).length ≤ 500 := by
  have h2 : (stage2 ctx questions wrongIds answeredIds).length
      = 50 + quotaTake 45 (unansweredPool questions wrongIds answeredIds) := by
    rw [stage2_eq ctx questions wrongIds answeredIds hw hc, List.length_append, hw,
      catPicks_length ctx hs 45 (unansweredPool questions wrongIds answeredIds)]
  have hble : quotaTake 45 (unansweredPool questions wrongIds answeredIds) ≤ 450 := by
    have h := quotaTake_le 45 (unansweredPool questions wrongIds answeredIds)
    rw [hc] at h
    omega
  unfold stage3
  split_ifs with hcond
  · rw [List.length_append]
    have hsl : (ctx.sample (correctPool questions wrongIds answeredIds)
        (min (500 - (stage2 ctx questions wrongIds answeredIds).length)
          (correctPool questions wrongIds answeredIds).length)).length
        = min (500 - (stage2 ctx questions wrongIds answeredIds).length)
          (correctPool questions wrongIds answeredIds).length :=
      (hs _ _).1 (min_le_right _ _)
    rw [hsl]
    omega
  · omega

/-- Claim C2, amended: on a 600-question corpus with 50 currently-wrong
questions and 10 categories of never-attempted questions, the curated set
always contains every wrong question and always serves at least one
question of every unanswered category; it has size exactly min(500, 600)
provided the quota-limited unanswered draw (sum over categories of min(45,
category size)) and the previously-answered-correctly pool together cover
the 450 places left after the wrong questions; with skewed categories and
no correct pool the set is smaller (see the counterexample). -/
theorem top500_scenario (ctx : SelCtx) (hs : SampleOK ctx.sample)
    (hsh : ShuffleOK ctx.shuffle)
    (questions : List Question) (wrongIds answeredIds : List Int)
    (h600 : questions.length = 600)
    (hw : (wrongPool questions wrongIds).length = 50)
    (hc : (catKeys (unansweredPool questions wrongIds answeredIds)).length = 10) :
    (∀ q ∈ wrongPool questions wrongIds,
        q ∈ top500_curated ctx questions wrongIds answeredIds)
    ∧ (∀ c ∈ catKeys (unansweredPool questions wrongIds answeredIds),
        ∃ q ∈ top500_curated ctx questions wrongIds answeredIds,
          q.category = c ∧ q ∈ unansweredPool questions wrongIds answeredIds)
    ∧ (450 ≤ quotaTake 45 (unansweredPool questions wrongIds answeredIds)
          + (correctPool questions wrongIds answeredIds).length →
        (top500_curated ctx questions wrongIds answeredIds).length
          = min 500 questions.length) := by
  have htake : (stage3 ctx questions wrongIds answeredIds).take 500
      = stage3 ctx questions wrongIds answeredIds :=
    List.take_of_length_le (stage3_length_le ctx hs questions wrongIds answeredIds hw hc)
  have hmem_curated : ∀ x, x ∈ stage3 ctx questions wrongIds answeredIds →
      x ∈ top500_curated ctx questions wrongIds answeredIds := by
    intro x hx
    unfold top500_curated
    rw [(hsh _).mem_iff, htake]
    exact hx
  have hmem_s3 : ∀ x, x ∈ stage2 ctx questions wrongIds answeredIds →
      x ∈ stage3 ctx questions wrongIds answeredIds := by
    intro x hx
    unfold stage3
    split_ifs with hcond
    · exact List.mem_append_left _ hx
    · exact hx
  refine ⟨?_, ?_, ?_⟩
  · intro q hq
    apply hmem_curated
    apply hmem_s3
    rw [stage2_eq ctx questions wrongIds answeredIds hw hc]
    exact List.mem_append_left _ hq
  · intro c hcmem
    obtain ⟨q0, hq0, hq0c⟩ := catKeys_mem_exists hcmem
    have hq0p : q0 ∈ (unansweredPool questions wrongIds answeredIds).filter
        (fun q => q.category == c) := by
      rw [List.mem_filter]
      exact ⟨hq0, by simp [hq0c]⟩
    have hplen : 0 < ((unansweredPool questions wrongIds answeredIds).filter
        (fun q => q.category == c)).length := List.length_pos_of_mem hq0p
    have hslen : (ctx.sample ((unansweredPool questions wrongIds answeredIds).filter
          (fun q => q.category == c))
        (min 45 ((unansweredPool questions wrongIds answeredIds).filter
          (fun q => q.category == c)).length)).length
        = min 45 ((unansweredPool questions wrongIds answeredIds).filter
          (fun q => q.category == c)).length :=
      (hs _ _).1 (min_le_right _ _)
    have hsne : ctx.sample ((unansweredPool questions wrongIds answeredIds).filter
          (fun q => q.category == c))
        (min 45 ((unansweredPool questions wrongIds answeredIds).filter
          (fun q => q.category == c)).length) ≠ [] := by
      intro he
      rw [he] at hslen
      simp only [List.length_nil] at hslen
      omega
    obtain ⟨x, hx⟩ := List.exists_mem_of_ne_nil _ hsne
    have hxpool : x ∈ (unansweredPool questions wrongIds answeredIds).filter
        (fun q => q.category == c) :=
      (hs _ _).2 x hx
    have hxc : x.category = c := by
      have h := (List.mem_filter.1 hxpool).2
      simpa using h
    have hxup : x ∈ unansweredPool questions wrongIds answeredIds :=
      (List.mem_filter.1 hxpool).1
    refine ⟨x, ?_, hxc, hxup⟩
    apply hmem_curated
    apply hmem_s3
    rw [stage2_eq ctx questions wrongIds answeredIds hw hc]
    apply List.mem_append_right
    rw [catPicks]
    rw [List.mem_flatMap]
    exact ⟨c, hcmem, hx⟩
  · intro hcover
    have h3 := stage3_length ctx hs questions wrongIds answeredIds hw hc hcover
    unfold top500_curated
    rw [(hsh _).length_eq, htake, h3, h600]
    norm_num

set_option maxRecDepth 400000 in
set_option maxHeartbeats 2000000 in
/-- Claim C2, counterexample: a 600-question corpus with 50 currently-wrong
questions and 10 never-attempted categories (sizes 541, 1, ..., 1) and no
previously-answered-correctly questions, run under a possible execution of
the randomized primitives, yields a curated set of 104 questions, not
min(500, 600) = 500: the one-pass per-category quota of 45 draws only
45 + 9 questions and nothing refills the shortfall. -/
theorem top500_scenario_counterexample :
    SampleOK ctxTake.sample ∧ ShuffleOK ctxTake.shuffle
    ∧ cexCorpus.length = 600
    ∧ (wrongPool cexCorpus scenarioWrongIds).length = 50
    ∧ (catKeys (unansweredPool cexCorpus scenarioWrongIds [])).length = 10
    ∧ (top500_curated ctxTake cexCorpus scenarioWrongIds []).length = 104
    ∧ (104 : Nat) ≠ min 500 cexCorpus.length := by
  have h600 : cexCorpus.length = 600 := by decide
  refine ⟨takeSampleOK, idShuffleOK, h600, by decide, by decide, by decide, ?_⟩
  rw [h600]
  decide

set_option maxRecDepth 400000 in
set_option maxHeartbeats 2000000 in
/-- Witness for the amended claim C2: the balanced 600-question corpus (50
wrong, 10 never-attempted categories of 55 questions each) satisfies the
scenario hypotheses, every wrong question lands in its curated set, and,
the coverage hypothesis holding, the curated set has size exactly
min(500, 600). -/
theorem top500_scenario_witness :
    witCorpus.length = 600
    ∧ (wrongPool witCorpus scenarioWrongIds).length = 50
    ∧ (catKeys (unansweredPool witCorpus scenarioWrongIds [])).length = 10
    ∧ 450 ≤ quotaTake 45 (unansweredPool witCorpus scenarioWrongIds [])
        + (correctPool witCorpus scenarioWrongIds []).length
    ∧ (∀ q ∈ wrongPool witCorpus scenarioWrongIds,
        q ∈ top500_curated ctxTake witCorpus scenarioWrongIds [])
    ∧ (top500_curated ctxTake witCorpus scenarioWrongIds []).length
        = min 500 witCorpus.length := by
  have h600 : witCorpus.length = 600 := by decide
  have hw : (wrongPool witCorpus scenarioWrongIds).length = 50 := by decide
  have hc : (catKeys (unansweredPool witCorpus scenarioWrongIds [])).length = 10 := by decide
  have hcover : 450 ≤ quotaTake 45 (unansweredPool witCorpus scenarioWrongIds [])
      + (correctPool witCorpus scenarioWrongIds []).length := by decide
  exact ⟨h600, hw, hc, hcover,
    (top500_scenario ctxTake takeSampleOK idShuffleOK witCorpus scenarioWrongIds []
      h600 hw hc).1,
    (top500_scenario ctxTake takeSampleOK idShuffleOK witCorpus scenarioWrongIds []
      h600 hw hc).2.2 hcover⟩
